import Mathlib

/-!
Shallow embedding of the inventory reconciliation and soft-delete ledger
logic of `src/warehouse_dashboard.py`.

Numeric cells are modelled as `Option Int`: `none` stands for a missing or
unparseable value (pandas `NaN`).  The coercion
`pd.to_numeric(col, errors "coerce").fillna(0)` becomes `toNum0`.  A table is
a `List Row`; column presence that varies between uploads is tracked by the
`has...` flags of `UploadTable`.  Status strings are kept literally
("Active" / "Deleted") as in the source.
-/

/-- One inventory row.  `locs` holds the quantities of the discovered
location columns, in the fixed column order of the table. -/
structure Row where
  sku : Option String
  descr : String
  qtyhold : Option Int
  stdcube : Option Int
  qtyavail : Option Int
  qty : Option Int
  deleted : Option Int
  locs : List (Option Int)
  status : String
deriving DecidableEq, Repr

/-- Coercion `pd.to_numeric(col, errors "coerce").fillna(0)` on one cell
(warehouse_dashboard.py lines 158-161 / 251-254). -/
def toNum0 (c : Option Int) : Option Int := some (c.getD 0)

/-- Reading a cell as a number, with NaN counted as 0 (as pandas `sum` does). -/
def coerce0 (c : Option Int) : Int := c.getD 0

/-- Row sum `df[loc_cols].sum(axis=1)` for one row: NaN cells count as 0. -/
def locSumO (locs : List (Option Int)) : Int := (locs.map coerce0).sum

/-- Normalisation `.astype(int).clip(0, 1)` of one DELETED value (lines 182 / 263). -/
def clip01 (d : Int) : Int := min (max d 0) 1

/-- Status derivation `np.where(DELETED == 1, "Deleted", "Active")` (lines 183 / 264). -/
def statusOf (del2 : Option Int) : String :=
  if del2 == some 1 then "Deleted" else "Active"

/-- Status derivation followed by the zero-quantity auto-mark
(lines 260-270: Status from DELETED, then Status/DELETED forced to
Deleted/1 where QTY == 0 and Status == "Active").  Returns the final
(Status, DELETED) pair. -/
def syncFlags (qty del2 : Option Int) : String × Option Int :=
  let status1 := statusOf del2
  if qty == some 0 && status1 == "Active" then ("Deleted", some 1)
  else (status1, del2)

/-- Per-row body of the live `process_edited_df` (lines 243-285, the second
definition, which shadows the first): coerce the numeric columns, recompute
QTY as the clipped sum of the location columns (line 257 overwrites the
coerced QTY column unconditionally), normalise DELETED, derive Status, and
auto-mark zero-quantity Active rows as Deleted.  `hasDEL` says whether the
DELETED column was present in the input (line 261 inserts 0 otherwise). -/
def processRowEdited (hasDEL : Bool) (r : Row) : Row :=
  let locs := r.locs.map toNum0
  let qty : Option Int := some (max (locSumO locs) 0)
  let del2 := (if hasDEL then toNum0 r.deleted else some 0).map clip01
  let sd := syncFlags qty del2
  { r with qtyhold := toNum0 r.qtyhold, stdcube := toNum0 r.stdcube,
           qtyavail := toNum0 r.qtyavail, qty := qty, deleted := sd.2,
           locs := locs, status := sd.1 }

/-- Python `str.strip` on the character list: drop leading and trailing
whitespace. -/
def pyStripList (l : List Char) : List Char :=
  ((l.dropWhile Char.isWhitespace).reverse.dropWhile Char.isWhitespace).reverse

/-- Python `str.strip` (`.str.strip()` at line 232 / 275). -/
def pyStrip (s : String) : String := String.mk (pyStripList s.toList)

/-- SKU cleanup of `process_edited_df` (lines 272-276): drop NaN SKUs,
strip surrounding whitespace, drop rows whose stripped SKU is empty. -/
def skuClean (r : Row) : Option Row :=
  match r.sku with
  | none => none
  | some s =>
    if pyStrip s = "" then none else some { r with sku := some (pyStrip s) }

/-- The live `process_edited_df` (lines 243-285): per-row numeric
processing followed by the SKU cleanup.  The source applies the SKU steps
last (lines 272-276); both act row-wise, so the table is the filterMap of
the mapped rows. -/
def process_edited_df (hasDEL : Bool) (rows : List Row) : List Row :=
  (rows.map (processRowEdited hasDEL)).filterMap skuClean

/-- A raw uploaded table.  The `has...` flags record which of the fixed
columns the spreadsheet supplied; `locCols` is the filtered location column
list of line 154-155 (names of the `locs` entries, in order). -/
structure UploadTable where
  hasSKU : Bool
  hasDESCR : Bool
  hasQTYHOLD : Bool
  hasSTDCUBE : Bool
  hasQTYAVAILABLE : Bool
  hasQTY : Bool
  hasDELETED : Bool
  locCols : List String
  rows : List Row
deriving DecidableEq, Repr

/-- The `missing` list of the required-columns check (lines 148-149),
in the order of `required_cols`. -/
def missingCols (t : UploadTable) : List String :=
  (if t.hasSKU then [] else ["SKU"]) ++
  (if t.hasDESCR then [] else ["DESCR"]) ++
  (if t.hasQTYHOLD then [] else ["QTYHOLD"]) ++
  (if t.hasSTDCUBE then [] else ["STDCUBE"]) ++
  (if t.hasQTYAVAILABLE then [] else ["QTYAVAILABLE"])

/-- Per-row body of `process_uploaded_df` (lines 157-190): coerce the
numeric columns present; compute QTY as the location sum when the QTY
column is absent, otherwise backfill only entries that are NaN at line 173
(after the fillna(0) of line 161 no entry is NaN, so the backfill branch
never fires for present columns — kept as written); clip QTY at zero;
normalise DELETED (inserted as 0 when absent, line 180-181); derive Status
and auto-mark zero-quantity Active rows. -/
def processRowUploaded (hasQTY hasDEL : Bool) (r : Row) : Row :=
  let locs := r.locs.map toNum0
  let qty0 := if hasQTY then toNum0 r.qty else r.qty
  let qty1 := if hasQTY then (if qty0.isNone then some (locSumO locs) else qty0)
              else some (locSumO locs)
  let qty2 := qty1.map (fun v => max v 0)
  let del2 := (if hasDEL then toNum0 r.deleted else some 0).map clip01
  let sd := syncFlags qty2 del2
  { r with qtyhold := toNum0 r.qtyhold, stdcube := toNum0 r.stdcube,
           qtyavail := toNum0 r.qtyavail, qty := qty2, deleted := sd.2,
           locs := locs, status := sd.1 }

/-- The function `process_uploaded_df` (lines 133-199): fail when required fixed columns
are missing, naming them; otherwise drop rows with NaN SKU (line 165 —
the upload path neither strips SKUs nor drops blank strings) and apply the
per-row processing.  The source coerces numerics (158-161) before the SKU
drop (163-167); the per-row transform never touches `sku`, so filtering
first yields the same table. -/
def process_uploaded_df (t : UploadTable) : Except String (List Row) :=
  if missingCols t = [] then
    Except.ok ((t.rows.filter (fun r => r.sku.isSome)).map
      (processRowUploaded t.hasQTY t.hasDELETED))
  else
    Except.error ("Missing required columns: " ++
      String.intercalate ", " (missingCols t))

/-- The violation test of `validate_data` (line 297): the row's location
sum exceeds QTYAVAILABLE (pandas compares cell-wise; a NaN on the right
compares false). -/
def violPred (r : Row) : Bool :=
  match r.qtyavail with
  | some v => decide (locSumO r.locs > v)
  | none => false

/-- The function `validate_data` (lines 287-298): with no location columns or an empty
table return (0, []); otherwise report the violating rows as their count
and their SKU list. -/
def validate_data (locCols : List String) (rows : List Row) : Nat × List String :=
  if locCols.isEmpty || rows.isEmpty then (0, [])
  else
    ((rows.filter violPred).length,
     (rows.filter violPred).map (fun r => r.sku.getD ""))

/-- Cell addition of the restore merge (`+=` at line 823); pandas addition
propagates NaN. -/
def addCell (a b : Option Int) : Option Int :=
  match a, b with
  | some x, some y => some (x + y)
  | _, _ => none

/-- Merging one ledger row `d` onto one conflicting active row `a`
(lines 819-827): add QTY, QTYHOLD, STDCUBE, QTYAVAILABLE and every
location quantity of the ledger row onto the active row; if the ledger
row's DELETED is 1 force DELETED to 1 and Status to "Deleted". -/
def mergeOne (d a : Row) : Row :=
  let m := { a with qty := addCell a.qty d.qty,
                    qtyhold := addCell a.qtyhold d.qtyhold,
                    stdcube := addCell a.stdcube d.stdcube,
                    qtyavail := addCell a.qtyavail d.qtyavail,
                    locs := List.zipWith addCell a.locs d.locs }
  if d.deleted == some 1 then { m with deleted := some 1, status := "Deleted" }
  else m

/-- Membership test `df['SKU'].isin(sel)` for a single row (lines 809, 832). -/
def skuMem (r : Row) (sel : List String) : Bool :=
  match r.sku with
  | some s => sel.contains s
  | none => false

/-- Whether a ledger row's SKU already occurs in the active table
(membership in `conflicting_skus`, line 811). -/
def skuInInv (inv : List Row) (d : Row) : Bool :=
  match d.sku with
  | some s => inv.any (fun a => a.sku == some s)
  | none => false

/-- The restore action up to (not including) the final re-processing
(lines 809-831): select the ledger rows whose SKU was chosen; every active
row whose SKU matches a selected ledger row is merged with the FIRST such
ledger row (`.iloc[0]` at line 818, the mask of line 816 updating every
matching active row); the non-conflicting selected ledger rows are appended
to the table (line 830-831). -/
def restoreMerge (inv ledger : List Row) (sel : List String) : List Row :=
  let restoreRows := ledger.filter (fun r => skuMem r sel)
  (inv.map (fun a =>
    match restoreRows.find? (fun d => a.sku.isSome && d.sku == a.sku) with
    | some d => mergeOne d a
    | none => a))
  ++ restoreRows.filter (fun d => ! skuInInv inv d)

/-- The full restore action (lines 808-834): merge / reinsert as above,
remove every ledger entry whose SKU was selected (line 832, regardless of
the merge outcome), then re-process the whole table through
`process_edited_df` (line 834).  Returns (new active table, new ledger). -/
def restoreSelected (inv ledger : List Row) (sel : List String) :
    List Row × List Row :=
  (process_edited_df true (restoreMerge inv ledger sel),
   ledger.filter (fun r => ! skuMem r sel))

/-- One change-log record (`change_log` rows, line 551). -/
structure LogEntry where
  action : String
  sku : String
  descr : String
deriving DecidableEq, Repr

/-- The session state touched by an upload (lines 550-583). -/
structure AppState where
  full_inventory : List Row
  loc_cols : List String
  deleted_skus : List Row
  change_log : List LogEntry
deriving DecidableEq, Repr

/-- The log entry appended on a successful upload (lines 571-576). -/
def uploadLogEntry (n : Nat) : LogEntry :=
  { action := "Upload", sku := "N/A",
    descr := "Uploaded " ++ toString n ++ " SKUs" }

/-- The upload handler (lines 562-583): on success replace the inventory,
reset the soft-delete ledger to empty (line 570) and append exactly one
Upload log entry; on failure show the error and leave the state unchanged. -/
def uploadAction (st : AppState) (t : UploadTable) : AppState :=
  match process_uploaded_df t with
  | Except.error _ => st
  | Except.ok inv =>
    { full_inventory := inv, loc_cols := t.locCols,
      deleted_skus := [],
      change_log := st.change_log ++ [uploadLogEntry inv.length] }

/-! Concrete rows and tables used by the witnesses and counterexamples. -/

def rowNegLoc : Row :=
  { sku := some "A", descr := "", qtyhold := some 0, stdcube := some 0,
    qtyavail := some 0, qty := some 1, deleted := some 0,
    locs := [some (-5)], status := "" }

def tblAllCols : UploadTable :=
  { hasSKU := true, hasDESCR := true, hasQTYHOLD := true, hasSTDCUBE := true,
    hasQTYAVAILABLE := true, hasQTY := true, hasDELETED := true,
    locCols := ["21KCH2"], rows := [] }

def tblNegLoc : UploadTable := { tblAllCols with rows := [rowNegLoc] }

def rowNegLocOut : Row := { rowNegLoc with status := "Active" }

def rowBlankQty : Row :=
  { sku := some "A", descr := "", qtyhold := some 0, stdcube := some 0,
    qtyavail := some 0, qty := none, deleted := some 0,
    locs := [some 3, some 4], status := "" }

def tblBlankQty : UploadTable :=
  { tblAllCols with locCols := ["21KCH2", "21KCH5"], rows := [rowBlankQty] }

def rowBlankQtyOut : Row :=
  { rowBlankQty with qty := some 0, deleted := some 1, status := "Deleted" }

def rowWsSku : Row := { rowNegLoc with sku := some " " }

def tblWsSku : UploadTable := { tblAllCols with rows := [rowWsSku] }

def rowWsSkuOut : Row := { rowWsSku with status := "Active" }

def rowViolA : Row := { rowNegLoc with qtyavail := some 5, locs := [some 8] }

def rowViolB : Row := { rowNegLoc with qtyavail := some 3, locs := [some 9] }

def rowOk : Row :=
  { sku := some "A100", descr := "d", qtyhold := some 1, stdcube := some 1,
    qtyavail := some 5, qty := some 5, deleted := some 0,
    locs := [some 5], status := "" }

def tblOk : UploadTable := { tblAllCols with rows := [rowOk] }

def rowOkOut : Row := { rowOk with status := "Active" }

def stExample : AppState :=
  { full_inventory := [], loc_cols := [],
    deleted_skus := [rowOk],
    change_log := [{ action := "Edit", sku := "A100", descr := "old" }] }

def tblNoSku : UploadTable := { tblAllCols with hasSKU := false }

def actEx : Row :=
  { sku := some "A100", descr := "x", qtyhold := some 1, stdcube := some 2,
    qtyavail := some 10, qty := some 6, deleted := some 0,
    locs := [some 6], status := "Active" }

def ledEx : Row :=
  { sku := some "A100", descr := "x", qtyhold := some 3, stdcube := some 4,
    qtyavail := some 4, qty := some 2, deleted := some 1,
    locs := [some 2], status := "Deleted" }

def act10 : Row := { actEx with sku := some "B1" }

def led10a : Row := { ledEx with sku := some "B1" }

def led10b : Row := { ledEx with sku := some "B1", qtyavail := some 100 }

/-! Helper lemmas. -/

theorem toNum0_toNum0 (c : Option Int) : toNum0 (toNum0 c) = toNum0 c := by
  cases c <;> rfl

theorem map_toNum0_idem (l : List (Option Int)) :
    (l.map toNum0).map toNum0 = l.map toNum0 := by
  induction l with
  | nil => rfl
  | cons a l ih => simp [List.map_cons, ih, toNum0_toNum0]

theorem coerce0_toNum0 (c : Option Int) : coerce0 (toNum0 c) = coerce0 c := by
  cases c <;> rfl

theorem locSumO_map_toNum0 (l : List (Option Int)) :
    locSumO (l.map toNum0) = locSumO l := by
  induction l with
  | nil => rfl
  | cons a l ih =>
    simp only [locSumO, List.map_cons, List.sum_cons] at ih ⊢
    rw [coerce0_toNum0, ih]

theorem clip01_eq (d : Int) : clip01 d = if d ≤ 0 then 0 else 1 := by
  unfold clip01
  by_cases h : d ≤ 0
  · rw [if_pos h, max_eq_right h]
    norm_num
  · rw [if_neg h]
    push_neg at h
    have h1 : (1 : Int) ≤ d := h
    rw [max_eq_left (le_trans (by norm_num) h1), min_eq_right h1]

theorem clip01_cases (d : Int) : clip01 d = 0 ∨ clip01 d = 1 := by
  rw [clip01_eq]
  by_cases h : d ≤ 0
  · left; rw [if_pos h]
  · right; rw [if_neg h]

theorem clip01_clip01 (d : Int) : clip01 (clip01 d) = clip01 d := by
  rcases clip01_cases d with h | h <;> rw [h] <;> decide

theorem dropWhile_self (p : Char → Bool) (l : List Char) :
    (l.dropWhile p).dropWhile p = l.dropWhile p := by
  induction l with
  | nil => rfl
  | cons a l ih =>
    by_cases h : p a
    · simp [List.dropWhile_cons, h, ih]
    · simp [List.dropWhile_cons, h]

theorem getLast?_dropWhile (p : Char → Bool) (l : List Char)
    (h : l.dropWhile p ≠ []) : (l.dropWhile p).getLast? = l.getLast? := by
  induction l with
  | nil => exact absurd rfl h
  | cons a l ih =>
    by_cases hp : p a
    · have hd : (a :: l).dropWhile p = l.dropWhile p := by
        simp [List.dropWhile_cons, hp]
      rw [hd] at h ⊢
      have hl : l ≠ [] := by
        intro e
        rw [e] at h
        exact h rfl
      rw [ih h]
      cases l with
      | nil => exact absurd rfl hl
      | cons b l' => rw [List.getLast?_cons_cons]
    · simp [List.dropWhile_cons, hp]

theorem head?_dropWhile (p : Char → Bool) (l : List Char) (a : Char)
    (h : (l.dropWhile p).head? = some a) : p a = false := by
  induction l with
  | nil => simp at h
  | cons b l ih =>
    by_cases hp : p b
    · rw [List.dropWhile_cons, if_pos hp] at h
      exact ih h
    · rw [List.dropWhile_cons, if_neg hp, List.head?_cons] at h
      injection h with h
      rw [← h]
      exact Bool.of_not_eq_true hp

theorem dropWhile_eq_self_of_head (p : Char → Bool) (l : List Char)
    (h : ∀ a, l.head? = some a → p a = false) : l.dropWhile p = l := by
  cases l with
  | nil => rfl
  | cons a l =>
    rw [List.dropWhile_cons, if_neg]
    rw [h a rfl]
    exact Bool.false_ne_true

theorem pyStripList_idem (l : List Char) :
    pyStripList (pyStripList l) = pyStripList l := by
  unfold pyStripList
  set p := Char.isWhitespace with hp
  set m := l.dropWhile p with hm
  set u := m.reverse.dropWhile p with hu
  have hfront : u.reverse.dropWhile p = u.reverse := by
    apply dropWhile_eq_self_of_head
    intro a ha
    rw [List.head?_reverse] at ha
    have hune : u ≠ [] := by
      intro e
      rw [e] at ha
      simp at ha
    rw [hu, getLast?_dropWhile p m.reverse (hu ▸ hune)] at ha
    rw [List.getLast?_reverse] at ha
    exact head?_dropWhile p l a (hm ▸ ha)
  rw [hfront, List.reverse_reverse, hu, dropWhile_self]

theorem pyStrip_idem (s : String) : pyStrip (pyStrip s) = pyStrip s := by
  unfold pyStrip
  exact congrArg String.mk (pyStripList_idem s.toList)

theorem Row.eq_of_fields {a b : Row} (h1 : a.sku = b.sku) (h2 : a.descr = b.descr)
    (h3 : a.qtyhold = b.qtyhold) (h4 : a.stdcube = b.stdcube)
    (h5 : a.qtyavail = b.qtyavail) (h6 : a.qty = b.qty) (h7 : a.deleted = b.deleted)
    (h8 : a.locs = b.locs) (h9 : a.status = b.status) : a = b := by
  cases a
  cases b
  simp_all

theorem skuClean_eq_some {y : Row} {s : String} (hy : y.sku = some s)
    (hs : pyStrip s ≠ "") :
    skuClean y = some { y with sku := some (pyStrip s) } := by
  simp [skuClean, hy, hs]

theorem skuClean_some_eq {y : Row} {s : String} (hy : y.sku = some s) :
    skuClean y =
      if pyStrip s = "" then none else some { y with sku := some (pyStrip s) } := by
  unfold skuClean
  rw [hy]

theorem skuClean_fields {y r : Row} (h : skuClean y = some r) :
    r.qty = y.qty ∧ r.status = y.status ∧ r.deleted = y.deleted ∧ r.locs = y.locs
    ∧ ∃ s, y.sku = some s ∧ r.sku = some (pyStrip s) ∧ pyStrip s ≠ "" := by
  cases hy : y.sku with
  | none =>
    rw [skuClean, hy] at h
    exact absurd h (by simp)
  | some s =>
    rw [skuClean_some_eq hy] at h
    by_cases hs : pyStrip s = ""
    · rw [if_pos hs] at h
      exact absurd h (by simp)
    · rw [if_neg hs] at h
      injection h with h
      subst h
      exact ⟨rfl, rfl, rfl, rfl, s, rfl, rfl, hs⟩

theorem syncFlags_spec (qty del2 : Option Int) :
    (del2 = some 1 ∧ syncFlags qty del2 = ("Deleted", some 1))
    ∨ (del2 ≠ some 1 ∧ qty = some 0 ∧ syncFlags qty del2 = ("Deleted", some 1))
    ∨ (del2 ≠ some 1 ∧ qty ≠ some 0 ∧ syncFlags qty del2 = ("Active", del2)) := by
  unfold syncFlags statusOf
  by_cases h1 : del2 = some 1
  · left
    refine ⟨h1, ?_⟩
    rw [if_pos (beq_iff_eq.mpr h1)]
    rw [if_neg]
    · rw [h1]
    · simp
  · rw [if_neg ((beq_iff_eq (a := del2)).not.mpr h1)]
    by_cases h2 : qty = some 0
    · right; left
      refine ⟨h1, h2, ?_⟩
      rw [if_pos]
      rw [h2]
      decide
    · right; right
      refine ⟨h1, h2, ?_⟩
      rw [if_neg]
      simp [h2]

theorem processRowEdited_sku (hd : Bool) (r : Row) :
    (processRowEdited hd r).sku = r.sku := rfl

theorem processRowEdited_qty_eq (hd : Bool) (r : Row) :
    (processRowEdited hd r).qty = some (max (locSumO (r.locs.map toNum0)) 0) := rfl

theorem processRowEdited_locs (hd : Bool) (r : Row) :
    (processRowEdited hd r).locs = r.locs.map toNum0 := rfl

theorem processRowEdited_status (hd : Bool) (r : Row) :
    (processRowEdited hd r).status =
      (syncFlags (some (max (locSumO (r.locs.map toNum0)) 0))
        ((if hd then toNum0 r.deleted else some 0).map clip01)).1 := rfl

theorem processRowEdited_deleted (hd : Bool) (r : Row) :
    (processRowEdited hd r).deleted =
      (syncFlags (some (max (locSumO (r.locs.map toNum0)) 0))
        ((if hd then toNum0 r.deleted else some 0).map clip01)).2 := rfl

theorem processRowUploaded_sku (hq hd : Bool) (r : Row) :
    (processRowUploaded hq hd r).sku = r.sku := rfl

theorem processRowUploaded_qty (hq hd : Bool) (r : Row) :
    ∃ q, (processRowUploaded hq hd r).qty = some q ∧ 0 ≤ q := by
  cases hq with
  | false => exact ⟨max (locSumO (r.locs.map toNum0)) 0, rfl, le_max_right _ _⟩
  | true => exact ⟨max (r.qty.getD 0) 0, rfl, le_max_right _ _⟩

theorem process_uploaded_df_ok {t : UploadTable} {inv : List Row}
    (h : process_uploaded_df t = Except.ok inv) :
    inv = (t.rows.filter (fun r => r.sku.isSome)).map
      (processRowUploaded t.hasQTY t.hasDELETED) := by
  unfold process_uploaded_df at h
  by_cases hm : missingCols t = []
  · rw [if_pos hm] at h
    injection h with h
    exact h.symm
  · rw [if_neg hm] at h
    exact absurd h (by simp)

/-- C3 (code_bug): with the QTY column present, a row whose QTY cell is
blank gets QTY 0, not the location sum.  The coercion at line 161 fills the
NaN with 0 before the backfill mask of line 173 tests `isna()`, so the
backfill the docstring announces ("Calculate QTY as sum of location columns
if missing/NaN", lines 136-139 and the comment at line 169) never fires for
a present column.  Here the locations sum to 7, yet the processed row keeps
QTY 0 and is even auto-marked Deleted. -/
theorem qty_backfill_dead_at_blank_qty :
    process_uploaded_df tblBlankQty = Except.ok [rowBlankQtyOut]
    ∧ rowBlankQtyOut.qty = some 0
    ∧ locSumO rowBlankQtyOut.locs = 7
    ∧ tblBlankQty.hasQTY = true
    ∧ rowBlankQty.qty = none := by
  exact ⟨rfl, rfl, by decide, rfl, rfl⟩

/-- C4: an input table with no SKU column makes `process_uploaded_df` fail
with the schema error naming the missing columns (an error value, not a
warning); no clean table is produced and the upload handler leaves the
session state unchanged. -/
theorem missing_sku_schema_error (st : AppState) (t : UploadTable)
    (h : t.hasSKU = false) :
    process_uploaded_df t =
      Except.error ("Missing required columns: " ++
        String.intercalate ", " (missingCols t))
    ∧ "SKU" ∈ missingCols t
    ∧ uploadAction st t = st := by
  have hne : missingCols t ≠ [] := by
    simp [missingCols, h]
  have herr : process_uploaded_df t =
      Except.error ("Missing required columns: " ++
        String.intercalate ", " (missingCols t)) := by
    unfold process_uploaded_df
    rw [if_neg hne]
  refine ⟨herr, ?_, ?_⟩
  · simp [missingCols, h]
  · unfold uploadAction
    rw [herr]

/-- Witness for C4 at a concrete table with every fixed column except SKU. -/
theorem missing_sku_schema_error_check :
    tblNoSku.hasSKU = false ∧ uploadAction stExample tblNoSku = stExample := by
  have h := missing_sku_schema_error stExample tblNoSku (by decide)
  exact ⟨by decide, h.2.2⟩

/-- C9: a successful upload resets the soft-delete ledger to the empty
table and appends exactly one log entry, an Upload entry, to the preserved
change log — no Restore or PermanentDelete entry is written for the
discarded ledger rows. -/
theorem upload_resets_ledger_keeps_log (st : AppState) (t : UploadTable)
    (inv : List Row) (h : process_uploaded_df t = Except.ok inv) :
    (uploadAction st t).deleted_skus = []
    ∧ (uploadAction st t).change_log = st.change_log ++ [uploadLogEntry inv.length]
    ∧ (uploadLogEntry inv.length).action = "Upload"
    ∧ (uploadLogEntry inv.length).action ≠ "Restore"
    ∧ (uploadLogEntry inv.length).action ≠ "Permanent Delete" := by
  unfold uploadAction
  rw [h]
  exact ⟨rfl, rfl, rfl, (by decide : ("Upload" : String) ≠ "Restore"),
    (by decide : ("Upload" : String) ≠ "Permanent Delete")⟩

/-- Witness for C9: a state with a nonempty ledger and a nonempty log,
after a successful one-row upload. -/
theorem upload_resets_ledger_check :
    (uploadAction stExample tblOk).deleted_skus = []
    ∧ (uploadAction stExample tblOk).change_log
        = stExample.change_log ++ [uploadLogEntry 1] := by
  have h := upload_resets_ledger_keeps_log stExample tblOk [rowOkOut] rfl
  exact ⟨h.1, h.2.1⟩

/-- Counterexample for C2: reconcile only clips the derived QTY, never the
individual location quantities.  A supplied location quantity of -5 is
still -5 in the clean table, refuting "every individual location
quantity >= 0". -/
theorem location_quantity_not_clipped :
    process_uploaded_df tblNegLoc = Except.ok [rowNegLocOut]
    ∧ some (-5 : Int) ∈ rowNegLocOut.locs
    ∧ ¬ (0 : Int) ≤ -5 := by
  exact ⟨rfl, by decide, by decide⟩

/-- Counterexample for C6: the upload path (lines 163-167) drops only rows
whose SKU cell is missing; it neither strips SKUs nor removes blank
strings, so a whitespace-only SKU " " survives reconcile untrimmed,
refuting "the clean table contains no row whose sku is ... whitespace-only"
for every input table. -/
theorem upload_keeps_whitespace_sku :
    process_uploaded_df tblWsSku = Except.ok [rowWsSkuOut]
    ∧ rowWsSkuOut.sku = some " "
    ∧ pyStrip " " = "" := by
  exact ⟨rfl, rfl, by decide⟩

/-- Counterexample for C5: `validate_data` (lines 287-298) returns only the
violation count and the SKU list.  Two tables whose violating rows carry
different (location sum, quantityAvailable) pairs produce identical
outputs, so the recorded violation cannot be reporting the two values. -/
theorem violation_values_not_reported :
    validate_data ["21KCH2"] [rowViolA] = validate_data ["21KCH2"] [rowViolB]
    ∧ validate_data ["21KCH2"] [rowViolA] = (1, ["A"])
    ∧ rowViolA.qtyavail = some 5 ∧ locSumO rowViolA.locs = 8
    ∧ rowViolB.qtyavail = some 3 ∧ locSumO rowViolB.locs = 9 := by
  exact ⟨rfl, rfl, rfl, by decide, rfl, by decide⟩

/-- C2 (amended): after reconcile every row of the clean table has
totalQuantity >= 0 — QTY is clipped at zero on both paths (lines 177 and
258); the individual location quantities are only coerced, not clipped. -/
theorem total_quantity_nonneg_after_reconcile (t : UploadTable) (inv : List Row)
    (h : process_uploaded_df t = Except.ok inv) (hd : Bool) (rows : List Row) :
    (∀ r ∈ inv, ∃ q, r.qty = some q ∧ 0 ≤ q)
    ∧ (∀ r ∈ process_edited_df hd rows, ∃ q, r.qty = some q ∧ 0 ≤ q) := by
  constructor
  · intro r hr
    rw [process_uploaded_df_ok h] at hr
    obtain ⟨x, hx, rfl⟩ := List.mem_map.mp hr
    exact processRowUploaded_qty t.hasQTY t.hasDELETED x
  · intro r hr
    unfold process_edited_df at hr
    obtain ⟨y, hy, hc⟩ := List.mem_filterMap.mp hr
    obtain ⟨x, hx, rfl⟩ := List.mem_map.mp hy
    obtain ⟨hq, -, -, -, -⟩ := skuClean_fields hc
    rw [hq, processRowEdited_qty_eq]
    exact ⟨_, rfl, le_max_right _ _⟩

/-- Witness for C2's amended claim at the concrete negative-location
table. -/
theorem total_quantity_nonneg_check :
    ∃ q, rowNegLocOut.qty = some q ∧ 0 ≤ q := by
  exact (total_quantity_nonneg_after_reconcile tblNegLoc [rowNegLocOut] rfl
    true []).1 rowNegLocOut (by decide)

/-- C5 (amended): a row whose location sum exceeds QTYAVAILABLE is
recorded by `validate_data` through its SKU (and counted), the validation
never removes rows — the row's image is still produced by the reconcile
pass — and validation is advisory: it returns a value and blocks
nothing. -/
theorem violation_advisory_sku_recorded (locCols : List String) (rows : List Row)
    (r : Row) (v : Int) (s : String) (hd : Bool)
    (hlc : locCols ≠ []) (hr : r ∈ rows) (hv : r.qtyavail = some v)
    (hgt : locSumO r.locs > v) (hs : r.sku = some s) (hps : pyStrip s ≠ "") :
    (r.sku.getD "") ∈ (validate_data locCols rows).2
    ∧ 0 < (validate_data locCols rows).1
    ∧ ∃ r' ∈ process_edited_df hd rows, r'.sku = some (pyStrip s) := by
  have hrowsne : rows ≠ [] := List.ne_nil_of_mem hr
  have hcond : ¬ ((locCols.isEmpty || rows.isEmpty) = true) := by
    simp [List.isEmpty_iff, hlc, hrowsne]
  have hpr : violPred r = true := by
    unfold violPred
    rw [hv]
    exact decide_eq_true hgt
  have hrf : r ∈ rows.filter violPred := List.mem_filter.mpr ⟨hr, hpr⟩
  refine ⟨?_, ?_, ?_⟩
  · unfold validate_data
    rw [if_neg hcond]
    exact List.mem_map_of_mem _ hrf
  · unfold validate_data
    rw [if_neg hcond]
    exact List.length_pos.mpr (List.ne_nil_of_mem hrf)
  · have hmem : processRowEdited hd r ∈ rows.map (processRowEdited hd) :=
      List.mem_map_of_mem _ hr
    have hsc : skuClean (processRowEdited hd r) =
        some { processRowEdited hd r with sku := some (pyStrip s) } :=
      skuClean_eq_some (by rw [processRowEdited_sku, hs]) hps
    exact ⟨_, List.mem_filterMap.mpr ⟨_, hmem, hsc⟩, rfl⟩

/-- Witness for C5's amended claim at the concrete violating row
(location sum 8 against quantityAvailable 5). -/
theorem violation_advisory_check :
    ("A" : String) ∈ (validate_data ["21KCH2"] [rowViolA]).2 := by
  exact (violation_advisory_sku_recorded ["21KCH2"] [rowViolA] rowViolA 5 "A" true
    (by decide) (by decide) rfl (by decide) rfl (by decide)).1

/-- C6 (amended): the edited-path reconcile keeps only rows whose SKU is
present and non-blank after stripping, and the kept SKUs are stripped of
surrounding whitespace; the upload path guarantees only that the SKU cell
is present. -/
theorem edited_reconcile_sku_clean (hd : Bool) (rows : List Row)
    (t : UploadTable) (inv : List Row)
    (h : process_uploaded_df t = Except.ok inv) :
    (∀ r ∈ process_edited_df hd rows, ∃ s, r.sku = some s ∧ s ≠ "" ∧ pyStrip s = s)
    ∧ ∀ r ∈ inv, r.sku.isSome := by
  constructor
  · intro r hr
    unfold process_edited_df at hr
    obtain ⟨y, hy, hc⟩ := List.mem_filterMap.mp hr
    obtain ⟨-, -, -, -, s, hsy, hsr, hne⟩ := skuClean_fields hc
    exact ⟨pyStrip s, hsr, hne, pyStrip_idem s⟩
  · intro r hr
    rw [process_uploaded_df_ok h] at hr
    obtain ⟨x, hx, rfl⟩ := List.mem_map.mp hr
    rw [processRowUploaded_sku]
    exact (List.mem_filter.mp hx).2

/-- Witness for C6's amended claim: the edited pass keeps SKU "A100"
stripped and non-blank. -/
theorem edited_reconcile_sku_clean_check :
    ∃ s, rowOkOut.sku = some s ∧ s ≠ "" ∧ pyStrip s = s := by
  exact (edited_reconcile_sku_clean true [rowOk] tblOk [rowOkOut] rfl).1
    rowOkOut (by decide)

theorem syncFlags_zero (del2 : Option Int) :
    syncFlags (some 0) del2 = ("Deleted", some 1) := by
  rcases syncFlags_spec (some 0) del2 with ⟨-, h2⟩ | ⟨-, -, h2⟩ | ⟨-, h2, -⟩
  · exact h2
  · exact h2
  · exact absurd rfl h2

theorem syncFlags_del1 (qty : Option Int) :
    syncFlags qty (some 1) = ("Deleted", some 1) := by
  rcases syncFlags_spec qty (some 1) with ⟨-, h2⟩ | ⟨h1, -, -⟩ | ⟨h1, -, -⟩
  · exact h2
  · exact absurd rfl h1
  · exact absurd rfl h1

theorem processRowEdited_status_deleted (hd : Bool) (r : Row) :
    ((processRowEdited hd r).status, (processRowEdited hd r).deleted) =
      syncFlags (processRowEdited hd r).qty
        ((if hd then toNum0 r.deleted else some 0).map clip01) := rfl

theorem processRowUploaded_status_deleted (hq hd : Bool) (r : Row) :
    ((processRowUploaded hq hd r).status, (processRowUploaded hq hd r).deleted) =
      syncFlags (processRowUploaded hq hd r).qty
        ((if hd then toNum0 r.deleted else some 0).map clip01) := rfl

/-- C7: reconcile never leaves a zero-quantity row Active — after either
pass, any clean-table row with QTY 0 has status Deleted and flag 1 — and
the transition is one-directional: a row whose DELETED flag is 1 comes out
of either per-row pass with status Deleted and flag 1 whatever its
(possibly positive) quantities, so a Deleted row is never
auto-reactivated. -/
theorem auto_deactivation_one_way (hd hq : Bool) (rows : List Row)
    (t : UploadTable) (inv : List Row)
    (h : process_uploaded_df t = Except.ok inv) :
    (∀ r ∈ process_edited_df hd rows, r.qty = some 0 →
      r.status = "Deleted" ∧ r.deleted = some 1)
    ∧ (∀ r ∈ inv, r.qty = some 0 → r.status = "Deleted" ∧ r.deleted = some 1)
    ∧ (∀ x : Row, x.deleted = some 1 →
        (processRowEdited true x).status = "Deleted"
        ∧ (processRowEdited true x).deleted = some 1)
    ∧ (∀ x : Row, x.deleted = some 1 →
        (processRowUploaded hq true x).status = "Deleted"
        ∧ (processRowUploaded hq true x).deleted = some 1) := by
  refine ⟨?_, ?_, ?_, ?_⟩
  · intro r hr h0
    unfold process_edited_df at hr
    obtain ⟨y, hy, hc⟩ := List.mem_filterMap.mp hr
    obtain ⟨x, hx, rfl⟩ := List.mem_map.mp hy
    obtain ⟨hqf, hst, hdf, -, -⟩ := skuClean_fields hc
    have hy0 : (processRowEdited hd x).qty = some 0 := by rw [← hqf, h0]
    have hp := processRowEdited_status_deleted hd x
    rw [hy0, syncFlags_zero] at hp
    exact ⟨hst.trans (congrArg Prod.fst hp), hdf.trans (congrArg Prod.snd hp)⟩
  · intro r hr h0
    rw [process_uploaded_df_ok h] at hr
    obtain ⟨x, hx, rfl⟩ := List.mem_map.mp hr
    have hp := processRowUploaded_status_deleted t.hasQTY t.hasDELETED x
    rw [h0, syncFlags_zero] at hp
    exact ⟨congrArg Prod.fst hp, congrArg Prod.snd hp⟩
  · intro x hx1
    have hp := processRowEdited_status_deleted true x
    rw [if_pos rfl] at hp
    rw [hx1] at hp
    have hone : (toNum0 (some (1 : Int))).map clip01 = some 1 := by decide
    rw [hone, syncFlags_del1] at hp
    exact ⟨congrArg Prod.fst hp, congrArg Prod.snd hp⟩
  · intro x hx1
    have hp := processRowUploaded_status_deleted hq true x
    rw [if_pos rfl] at hp
    rw [hx1] at hp
    have hone : (toNum0 (some (1 : Int))).map clip01 = some 1 := by decide
    rw [hone, syncFlags_del1] at hp
    exact ⟨congrArg Prod.fst hp, congrArg Prod.snd hp⟩

/-- Witness for C7: a flagged row with positive quantities stays Deleted
through the edited pass. -/
theorem auto_deactivation_one_way_check :
    (processRowEdited true ledEx).status = "Deleted"
    ∧ (processRowEdited true ledEx).deleted = some 1 := by
  exact (auto_deactivation_one_way true true [] tblOk [rowOkOut] rfl).2.2.1
    ledEx rfl

theorem mergeOne_qty (d a : Row) : (mergeOne d a).qty = addCell a.qty d.qty := by
  simp only [mergeOne]
  split <;> rfl

theorem mergeOne_qtyhold (d a : Row) :
    (mergeOne d a).qtyhold = addCell a.qtyhold d.qtyhold := by
  simp only [mergeOne]
  split <;> rfl

theorem mergeOne_stdcube (d a : Row) :
    (mergeOne d a).stdcube = addCell a.stdcube d.stdcube := by
  simp only [mergeOne]
  split <;> rfl

theorem mergeOne_qtyavail (d a : Row) :
    (mergeOne d a).qtyavail = addCell a.qtyavail d.qtyavail := by
  simp only [mergeOne]
  split <;> rfl

theorem mergeOne_locs (d a : Row) :
    (mergeOne d a).locs = List.zipWith addCell a.locs d.locs := by
  simp only [mergeOne]
  split <;> rfl

theorem mergeOne_sku (d a : Row) : (mergeOne d a).sku = a.sku := by
  simp only [mergeOne]
  split <;> rfl

theorem mergeOne_force (d a : Row) (h : d.deleted = some 1) :
    (mergeOne d a).status = "Deleted" ∧ (mergeOne d a).deleted = some 1 := by
  simp only [mergeOne]
  rw [if_pos (beq_iff_eq.mpr h)]
  exact ⟨rfl, rfl⟩

theorem mergeOne_mem_restoreMerge (inv ledger : List Row) (sel : List String)
    (a d : Row) (ha : a ∈ inv)
    (hfind : (ledger.filter (fun r => skuMem r sel)).find?
      (fun d' => a.sku.isSome && d'.sku == a.sku) = some d) :
    mergeOne d a ∈ restoreMerge inv ledger sel := by
  unfold restoreMerge
  apply List.mem_append_left
  have hg : (fun a' =>
      match (ledger.filter (fun r => skuMem r sel)).find?
        (fun d' => a'.sku.isSome && d'.sku == a'.sku) with
      | some d' => mergeOne d' a'
      | none => a') a = mergeOne d a := by
    simp only [hfind]
  exact hg ▸ List.mem_map_of_mem _ ha

theorem restore_ledger_removed (inv ledger : List Row) (sel : List String)
    (s : String) (hsel : s ∈ sel) :
    ∀ r ∈ (restoreSelected inv ledger sel).2, r.sku ≠ some s := by
  intro r hr hsku
  have h2 := (List.mem_filter.mp hr).2
  rw [Bool.not_eq_true'] at h2
  unfold skuMem at h2
  rw [hsku] at h2
  simp only at h2
  have h3 : sel.contains s = true := List.elem_iff.mpr hsel
  exact absurd (h3.symm.trans h2) (by decide)

/-- C1: restoring a SKU that conflicts with an existing active record
merges by adding the matched ledger row's QTY, QTYHOLD, STDCUBE,
QTYAVAILABLE and every location quantity onto the active record; if the
ledger row's DELETED flag was 1 the merged record is forced to Deleted
(and stays Deleted through the final re-processing of the table, whatever
the pre-merge status was); and every ledger entry bearing the selected SKU
is removed regardless of merge outcome. -/
theorem restore_conflict_merges_and_clears_ledger
    (inv ledger : List Row) (sel : List String) (a d : Row) (s : String)
    (ha : a ∈ inv) (hs : a.sku = some s) (hsel : s ∈ sel)
    (hfind : (ledger.filter (fun r => skuMem r sel)).find?
      (fun d' => a.sku.isSome && d'.sku == a.sku) = some d) :
    (mergeOne d a).qty = addCell a.qty d.qty
    ∧ (mergeOne d a).qtyhold = addCell a.qtyhold d.qtyhold
    ∧ (mergeOne d a).stdcube = addCell a.stdcube d.stdcube
    ∧ (mergeOne d a).qtyavail = addCell a.qtyavail d.qtyavail
    ∧ (mergeOne d a).locs = List.zipWith addCell a.locs d.locs
    ∧ (d.deleted = some 1 →
        (mergeOne d a).status = "Deleted" ∧ (mergeOne d a).deleted = some 1)
    ∧ mergeOne d a ∈ restoreMerge inv ledger sel
    ∧ (d.deleted = some 1 → pyStrip s ≠ "" →
        ∃ r' ∈ (restoreSelected inv ledger sel).1,
          r'.sku = some (pyStrip s) ∧ r'.status = "Deleted")
    ∧ ∀ r ∈ (restoreSelected inv ledger sel).2, r.sku ≠ some s := by
  refine ⟨mergeOne_qty d a, mergeOne_qtyhold d a, mergeOne_stdcube d a,
    mergeOne_qtyavail d a, mergeOne_locs d a, mergeOne_force d a,
    mergeOne_mem_restoreMerge inv ledger sel a d ha hfind, ?_,
    restore_ledger_removed inv ledger sel s hsel⟩
  intro hdel hps
  have hm := mergeOne_mem_restoreMerge inv ledger sel a d ha hfind
  have hysku : (processRowEdited true (mergeOne d a)).sku = some s := by
    rw [processRowEdited_sku, mergeOne_sku]
    exact hs
  have hsc := skuClean_eq_some hysku hps
  refine ⟨_, List.mem_filterMap.mpr ⟨_, List.mem_map_of_mem _ hm, hsc⟩, rfl, ?_⟩
  show (processRowEdited true (mergeOne d a)).status = "Deleted"
  have hp := processRowEdited_status_deleted true (mergeOne d a)
  rw [if_pos rfl, (mergeOne_force d a hdel).2] at hp
  have hone : (toNum0 (some (1 : Int))).map clip01 = some 1 := by decide
  rw [hone, syncFlags_del1] at hp
  exact congrArg Prod.fst hp

/-- Witness for C1 at the concrete conflict: active A100 and a ledger
snapshot of A100 with DELETED 1. -/
theorem restore_conflict_merge_check :
    (mergeOne ledEx actEx).qtyavail = addCell actEx.qtyavail ledEx.qtyavail
    ∧ mergeOne ledEx actEx ∈ restoreMerge [actEx] [ledEx] ["A100"] := by
  have h := restore_conflict_merges_and_clears_ledger [actEx] [ledEx] ["A100"]
    actEx ledEx "A100" (by decide) rfl (by decide) (by decide)
  exact ⟨h.2.2.2.1, h.2.2.2.2.2.2.1⟩

/-- C10: when the ledger holds several entries for the selected SKU, the
conflict merge uses only the FIRST matching ledger row (`.iloc[0]`,
line 818) — the merged row is `mergeOne d1 a` for the head entry `d1`,
whatever further entries `rest` contains — yet every ledger entry bearing
that SKU is removed (line 832 filters the whole ledger by SKU). -/
theorem restore_merges_first_ledger_entry_only
    (inv : List Row) (d1 : Row) (rest : List Row) (a : Row) (s : String)
    (sel : List String) (ha : a ∈ inv) (hs : a.sku = some s)
    (hd1 : d1.sku = some s) (hsel : s ∈ sel) :
    ((d1 :: rest).filter (fun r => skuMem r sel)).find?
      (fun d' => a.sku.isSome && d'.sku == a.sku) = some d1
    ∧ mergeOne d1 a ∈ restoreMerge inv (d1 :: rest) sel
    ∧ ∀ r ∈ (restoreSelected inv (d1 :: rest) sel).2, r.sku ≠ some s := by
  have hmem1 : skuMem d1 sel = true := by
    unfold skuMem
    rw [hd1]
    exact List.elem_iff.mpr hsel
  have hfil : (d1 :: rest).filter (fun r => skuMem r sel)
      = d1 :: rest.filter (fun r => skuMem r sel) :=
    List.filter_cons_of_pos hmem1
  have hpred : (a.sku.isSome && d1.sku == a.sku) = true := by
    rw [hs, hd1]
    simp
  have hfind : ((d1 :: rest).filter (fun r => skuMem r sel)).find?
      (fun d' => a.sku.isSome && d'.sku == a.sku) = some d1 := by
    rw [hfil]
    exact List.find?_cons_of_pos _ hpred
  exact ⟨hfind,
    mergeOne_mem_restoreMerge inv (d1 :: rest) sel a d1 ha hfind,
    restore_ledger_removed inv (d1 :: rest) sel s hsel⟩

/-- Witness for C10: two ledger entries for SKU B1 with different values;
the merge takes the first. -/
theorem restore_first_entry_check :
    (([led10a, led10b]).filter (fun r => skuMem r ["B1"])).find?
      (fun d' => act10.sku.isSome && d'.sku == act10.sku) = some led10a
    ∧ mergeOne led10a act10 ∈ restoreMerge [act10] [led10a, led10b] ["B1"] := by
  have h := restore_merges_first_ledger_entry_only [act10] led10a [led10b]
    act10 "B1" ["B1"] (by decide) rfl rfl (by decide)
  exact ⟨h.1, h.2.1⟩

theorem del2_shape (h : Bool) (c : Option Int) :
    (if h then toNum0 c else some 0).map clip01
      = some (clip01 (if h then c.getD 0 else 0)) := by
  cases h <;> cases c <;> rfl

theorem syncFlags_restable (qty : Option Int) (x : Int) :
    syncFlags qty ((toNum0 (syncFlags qty (some (clip01 x))).2).map clip01)
      = syncFlags qty (some (clip01 x)) := by
  have hone : (toNum0 (some (1 : Int))).map clip01 = some 1 := by decide
  rcases syncFlags_spec qty (some (clip01 x)) with ⟨-, h2⟩ | ⟨-, -, h2⟩ | ⟨-, -, h2⟩
  · rw [h2]
    show syncFlags qty ((toNum0 (some 1)).map clip01) = _
    rw [hone, syncFlags_del1]
  · rw [h2]
    show syncFlags qty ((toNum0 (some 1)).map clip01) = _
    rw [hone, syncFlags_del1]
  · rw [h2]
    show syncFlags qty ((toNum0 (some (clip01 x))).map clip01) = _
    have hc : (toNum0 (some (clip01 x))).map clip01
        = some (clip01 (clip01 x)) := rfl
    rw [hc, clip01_clip01, h2]

theorem processRowEdited_idem (h : Bool) (r : Row) :
    processRowEdited true (processRowEdited h r) = processRowEdited h r := by
  apply Row.eq_of_fields
  · rfl
  · rfl
  · exact toNum0_toNum0 r.qtyhold
  · exact toNum0_toNum0 r.stdcube
  · exact toNum0_toNum0 r.qtyavail
  · rw [processRowEdited_qty_eq true, processRowEdited_locs h,
      locSumO_map_toNum0, processRowEdited_qty_eq h]
  · rw [processRowEdited_deleted true, if_pos rfl, processRowEdited_locs h,
      locSumO_map_toNum0, processRowEdited_deleted h, del2_shape h r.deleted]
    exact congrArg Prod.snd (syncFlags_restable _ _)
  · exact map_toNum0_idem r.locs
  · rw [processRowEdited_status true, if_pos rfl, processRowEdited_locs h,
      locSumO_map_toNum0, processRowEdited_deleted h, del2_shape h r.deleted,
      processRowEdited_status h, del2_shape h r.deleted]
    exact congrArg Prod.fst (syncFlags_restable _ _)

theorem skuClean_stable (h : Bool) (r r' : Row)
    (hc : skuClean (processRowEdited h r) = some r') :
    processRowEdited true r' = r' ∧ skuClean r' = some r' := by
  obtain ⟨-, -, -, -, s, hsy, -, hne⟩ := skuClean_fields hc
  have he := (skuClean_eq_some hsy hne).symm.trans hc
  injection he with he
  subst he
  constructor
  · have hcomm : processRowEdited true
        { processRowEdited h r with sku := some (pyStrip s) }
        = { processRowEdited true (processRowEdited h r) with
            sku := some (pyStrip s) } := rfl
    rw [hcomm, processRowEdited_idem]
  · have hsku : ({ processRowEdited h r with
        sku := some (pyStrip s) } : Row).sku = some (pyStrip s) := rfl
    have hne2 : pyStrip (pyStrip s) ≠ "" := by
      rw [pyStrip_idem]
      exact hne
    rw [skuClean_eq_some hsku hne2, pyStrip_idem]

/-- C8: the edited-path reconcile is idempotent on its own output —
re-processing a processed table changes nothing (the clean table always
carries the DELETED column, so the second pass runs with it present). -/
theorem reconcile_idempotent (h : Bool) (rows : List Row) :
    process_edited_df true (process_edited_df h rows) = process_edited_df h rows := by
  induction rows with
  | nil => rfl
  | cons r rows ih =>
    show process_edited_df true
        (((r :: rows).map (processRowEdited h)).filterMap skuClean)
      = ((r :: rows).map (processRowEdited h)).filterMap skuClean
    rw [List.map_cons]
    cases hc : skuClean (processRowEdited h r) with
    | none =>
      rw [List.filterMap_cons_none hc]
      exact ih
    | some r' =>
      rw [List.filterMap_cons_some hc]
      obtain ⟨h1, h2⟩ := skuClean_stable h r r' hc
      show ((r' :: (rows.map (processRowEdited h)).filterMap skuClean).map
          (processRowEdited true)).filterMap skuClean = _
      rw [List.map_cons, h1, List.filterMap_cons_some h2]
      exact congrArg (List.cons r') ih
